import Mathlib

/-!
Verification of the retrieval/scoring core of the AI-Powered Job Application
Agent repository: the RAG engine (`src/utils/rag_engine.py`) and the match
calculator (`src/utils/match_calculator.py`), embedded shallowly in Lean.

Modelling conventions:
* Python strings are Lean `String`s; `str.lower()` is per-character lower-casing (`pyLower`) and the
  regex word class `\w` is `[A-Za-z0-9_]` (the ASCII idealization of Python's
  default Unicode semantics; all claims are insensitive to this choice).
* Python's stable `list.sort(key=..., reverse=True)` is modelled by Mathlib's
  `List.insertionSort`, which is a stable sort; descending order comes from
  sorting with the relation `scoreGE` (greater-or-equal on the score).
* Python slicing `l[:k]` (including negative `k`) is `pySlice`.
* Python `float` arithmetic is idealized as `ℚ`; `round(x, 1)` is modelled as
  round-half-to-even on the exact rational (`pyRound1`).
-/

namespace JobAgent

/-! ### RAG engine: `RAGEngine.retrieve_relevant_experience`
(src/utils/rag_engine.py, lines 56-83) -/

/-- A snippet as consumed by the ranker: the code only reads
`snippet['content']` (a string); metadata is carried along opaquely. -/
structure Snippet where
  content : String
  metadata : List (String × String) := []
deriving DecidableEq, Repr

/-- Python `str.lower()`: per-character lower-casing (ASCII idealization,
matching the `\w`/`isAlphanum` convention above). -/
def pyLower (s : String) : String := String.mk (s.toList.map Char.toLower)

/-- Python regex word character (`\w`): letter, digit or underscore. -/
def isWordChar (c : Char) : Bool := c.isAlphanum || c == '_'

/-- The literal pattern `pat` occurs in `cs` starting at index `i`. -/
def matchesAt (cs pat : List Char) (i : ℕ) : Bool :=
  decide ((cs.drop i).take pat.length = pat)

/-- Is the character at index `i` a word character (out of range counts as
non-word)? -/
def wordCharAt (cs : List Char) (i : ℕ) : Bool :=
  (cs[i]?.map isWordChar).getD false

/-- Regex `\b` holds between positions `i-1` and `i`: exactly one side is a
word character (positions outside the string count as non-word). -/
def wordBoundary (cs : List Char) (i : ℕ) : Bool :=
  (if i = 0 then false else wordCharAt cs (i - 1)) != wordCharAt cs i

/-- `re.search(rf'\b{re.escape(kw)}\b', content)` succeeds: the (literal,
`re.escape`d) keyword occurs somewhere with a word boundary on both sides. -/
def wholeWordMatch (content kw : String) : Bool :=
  (List.range (content.toList.length + 1)).any (fun i =>
    wordBoundary content.toList i &&
    matchesAt content.toList kw.toList i &&
    wordBoundary content.toList (i + kw.toList.length))

/-- Python `kw in content` (substring containment). -/
def substrContains (content kw : String) : Bool :=
  (List.range (content.toList.length + 1)).any (fun i =>
    matchesAt content.toList kw.toList i)

/-- The score accumulation loop over `job_keywords` for one snippet
(`score += 2` on a whole-word match of the lowered keyword in the lowered
content, `score += 1` on a substring hit, else unchanged). -/
def snippetScore (job_keywords : List String) (content : String) : ℕ :=
  job_keywords.foldl (fun score kw =>
    if wholeWordMatch (pyLower content) (pyLower kw) then score + 2
    else if substrContains (pyLower content) (pyLower kw) then score + 1
    else score) 0

/-- Per-keyword contribution to a snippet's score, as the spec words it:
2 for a whole-word case-insensitive match, else 1 for a case-insensitive
substring, else 0. -/
def keywordValue (content kw : String) : ℕ :=
  if wholeWordMatch (pyLower content) (pyLower kw) then 2
  else if substrContains (pyLower content) (pyLower kw) then 1
  else 0

/-- The snippet score as the spec words it: the sum over keywords of the
per-keyword value. -/
def scoreSpec (kws : List String) (content : String) : ℕ :=
  (kws.map (keywordValue content)).sum

/-- "Comes no later in descending score order": the right score is ≤ the left
score.  `insertionSort scoreGE` models Python's stable
`sort(key=lambda x: x[0], reverse=True)`. -/
def scoreGE {α : Type} (a b : ℕ × α) : Prop := b.1 ≤ a.1

instance {α : Type} : DecidableRel (@scoreGE α) :=
  fun a b => inferInstanceAs (Decidable (b.1 ≤ a.1))

instance {α : Type} : IsTotal (ℕ × α) scoreGE :=
  ⟨fun a b => (le_total b.1 a.1).imp id id⟩

instance {α : Type} : IsTrans (ℕ × α) scoreGE :=
  ⟨fun _ _ _ h1 h2 => le_trans h2 h1⟩

/-- Python's in-place stable descending sort by the first component. -/
def pySortDesc {α : Type} (l : List (ℕ × α)) : List (ℕ × α) :=
  l.insertionSort scoreGE

/-- Python slicing `l[:k]`, including the negative-`k` case
(`l[:-n]` keeps everything but the last `min(n, len(l))` elements). -/
def pySlice {α : Type} (l : List α) (k : ℤ) : List α :=
  if 0 ≤ k then l.take k.toNat else l.take (l.length - (-k).toNat)

/-- The `scored_snippets` list built by the loop: each snippet is scored and
appended (with its score) iff its score is positive. -/
def scoredSnippets (snippets : List Snippet) (job_keywords : List String) :
    List (ℕ × Snippet) :=
  snippets.filterMap (fun snippet =>
    let score := snippetScore job_keywords snippet.content
    if 0 < score then some (score, snippet) else none)

/-- `RAGEngine.retrieve_relevant_experience`: score, keep positive scores,
sort by score descending (stable), return the `top_k` slice of the snippets. -/
def retrieve_relevant_experience (snippets : List Snippet)
    (job_keywords : List String) (top_k : ℤ := 15) : List Snippet :=
  (pySlice (pySortDesc (scoredSnippets snippets job_keywords)) top_k).map
    (fun s => s.2)

/-! ### Match calculator: `MatchCalculator` (src/utils/match_calculator.py)

`calculate_match_score(profile, job_analysis)` first extracts the candidate
skill set and candidate keyword set from the profile
(`_extract_candidate_skills` / `_extract_keywords_from_profile`) and then
computes scores from those sets alone.  The embedding takes the two extracted
candidate sets as parameters (`candidate_skills`, `candidate_keywords`), so
every theorem quantifying over them covers every possible profile. -/

/-- Python `str.split()`: split on whitespace runs, dropping empty pieces. -/
def pySplitWs (s : String) : List String :=
  (s.split Char.isWhitespace).filter (fun w => !w.isEmpty)

/-- `set(req_item.split()) & set(cand_item.split())` is non-empty: the two
strings share at least one whitespace-delimited word. -/
def sharesWord (a b : String) : Bool :=
  (pySplitWs a).any (fun w => (pySplitWs b).contains w)

/-- `MatchCalculator._count_matches` (lines 135-154): for each required item,
add 1 on exact set membership, otherwise add 1 if some candidate item shares
a word with it (`break` after the first such candidate). -/
def count_matches (required candidate : List String) : ℕ :=
  required.foldl (fun m req_item =>
    if candidate.contains req_item then m + 1
    else if candidate.any (fun cand_item => sharesWord req_item cand_item) then
      m + 1
    else m) 0

/-- The `requirements` / `keywords` fields the calculator reads from the
job-analysis record. -/
structure JobAnalysis where
  must_have_skills : List String
  nice_to_have_skills : List String
  ats_keywords : List String
deriving DecidableEq, Repr

/-- `set(skill.lower() for skill in ...)`: the lower-cased member list with
duplicates collapsed (first occurrence kept; a Python set has no observable
order, and no claim depends on the order). -/
def lowerSet (l : List String) : List String := (l.map pyLower).dedup

def jobRequired (job : JobAnalysis) : List String := lowerSet job.must_have_skills

def jobNice (job : JobAnalysis) : List String := lowerSet job.nice_to_have_skills

def jobAts (job : JobAnalysis) : List String := lowerSet job.ats_keywords

/-- `required_score`: percentage of matched must-have skills, or the fixed
default 100 when the must-have set is empty (the guard that avoids a
division by zero). -/
def requiredScoreQ (candidate_skills : List String) (job : JobAnalysis) : ℚ :=
  if jobRequired job = [] then 100
  else (count_matches (jobRequired job) candidate_skills : ℚ) /
    (jobRequired job).length * 100

/-- `nice_to_have_score`: up to 50, or the fixed default 0 when empty. -/
def niceScoreQ (candidate_skills : List String) (job : JobAnalysis) : ℚ :=
  if jobNice job = [] then 0
  else (count_matches (jobNice job) candidate_skills : ℚ) /
    (jobNice job).length * 50

/-- `keyword_score`: up to 30, or the fixed default 0 when empty. -/
def keywordScoreQ (candidate_keywords : List String) (job : JobAnalysis) : ℚ :=
  if jobAts job = [] then 0
  else (count_matches (jobAts job) candidate_keywords : ℚ) /
    (jobAts job).length * 30

/-- `overall_score = min(100, required_score + nice_to_have_score +
keyword_score)` before rounding. -/
def overallQ (candidate_skills candidate_keywords : List String)
    (job : JobAnalysis) : ℚ :=
  min 100 (requiredScoreQ candidate_skills job +
    niceScoreQ candidate_skills job + keywordScoreQ candidate_keywords job)

/-- Round-half-to-even to an integer (Python's `round` on the idealized exact
value). -/
def roundHalfEven (q : ℚ) : ℤ :=
  if q - ⌊q⌋ < 1/2 then ⌊q⌋
  else if 1/2 < q - ⌊q⌋ then ⌊q⌋ + 1
  else if Even ⌊q⌋ then ⌊q⌋ else ⌊q⌋ + 1

/-- Python `round(x, 1)` on the idealized exact value. -/
def pyRound1 (q : ℚ) : ℚ := (roundHalfEven (q * 10) : ℚ) / 10

/-- `set difference` `job-side set - candidate set`, as a list (Python set
iteration order is unspecified; first-occurrence order is used here, and no
claim depends on the order). -/
def setDiff (l cand : List String) : List String :=
  l.filter (fun s => !cand.contains s)

def lowMatchMsg : String :=
  "⚠️  Low match score. Consider applying to roles better aligned with your skills."

def missingRequiredMsg (missing_required : List String) : String :=
  "📝 Add these required skills to your profile: " ++
    String.intercalate ", " (missing_required.take 5)

def missingNiceMsg (missing_nice_to_have : List String) : String :=
  "💡 Consider highlighting these nice-to-have skills: " ++
    String.intercalate ", " (missing_nice_to_have.take 5)

def strongMatchMsg : String :=
  "✅ Strong match! Your profile aligns well with this role."

def excellentMatchMsg : String :=
  "✅ Excellent match! You have all the key requirements."

/-- `MatchCalculator._generate_recommendations` (lines 156-180): four
independent rules appended in order, then the generic fallback only when no
rule fired. -/
def generate_recommendations (score : ℚ)
    (missing_required missing_nice_to_have : List String) : List String :=
  let recommendations :=
    (if score < 50 then [lowMatchMsg] else []) ++
    (if !missing_required.isEmpty then [missingRequiredMsg missing_required]
      else []) ++
    (if !missing_nice_to_have.isEmpty then
      [missingNiceMsg missing_nice_to_have] else []) ++
    (if 70 ≤ score then [strongMatchMsg] else [])
  if recommendations.isEmpty then [excellentMatchMsg] else recommendations

/-- The record returned by `calculate_match_score`. -/
structure MatchResult where
  overall_score : ℚ
  required_skills_score : ℚ
  nice_to_have_score : ℚ
  keyword_score : ℚ
  required_skills_matched : ℕ
  required_skills_total : ℕ
  nice_to_have_matched : ℕ
  nice_to_have_total : ℕ
  keywords_matched : ℕ
  keywords_total : ℕ
  missing_required_skills : List String
  missing_nice_to_have_skills : List String
  recommendations : List String
deriving Repr

/-- `MatchCalculator.calculate_match_score` (lines 56-95), given the two
candidate sets already extracted from the profile. -/
def calculate_match_score (candidate_skills candidate_keywords : List String)
    (job : JobAnalysis) : MatchResult :=
  { overall_score := pyRound1 (overallQ candidate_skills candidate_keywords job)
    required_skills_score := pyRound1 (requiredScoreQ candidate_skills job)
    nice_to_have_score := pyRound1 (niceScoreQ candidate_skills job)
    keyword_score := pyRound1 (keywordScoreQ candidate_keywords job)
    required_skills_matched := count_matches (jobRequired job) candidate_skills
    required_skills_total := (jobRequired job).length
    nice_to_have_matched := count_matches (jobNice job) candidate_skills
    nice_to_have_total := (jobNice job).length
    keywords_matched := count_matches (jobAts job) candidate_keywords
    keywords_total := (jobAts job).length
    missing_required_skills :=
      (setDiff (jobRequired job) candidate_skills).take 10
    missing_nice_to_have_skills :=
      (setDiff (jobNice job) candidate_skills).take 10
    recommendations := generate_recommendations
      (overallQ candidate_skills candidate_keywords job)
      (setDiff (jobRequired job) candidate_skills)
      (setDiff (jobNice job) candidate_skills) }

/-! ### Snippet store: `RAGEngine._initialize_snippets`
(src/utils/rag_engine.py, lines 21-54)

The profile is a parsed JSON document.  The code runs inside one
`try/except Exception` block and mutates `self.snippets` in place, so a
failure part-way through leaves the snippets appended so far in the store.
The embedding makes that explicit: each phase returns the snippets it
appended together with a flag saying whether it completed without raising.
`Option Json` models the result of opening and `json.load`-ing the profile
file: `none` when the file is unreadable or not valid JSON. -/

/-- A parsed JSON value. -/
inductive Json where
  | null
  | bool (b : Bool)
  | num (n : ℤ)
  | str (s : String)
  | arr (xs : List Json)
  | obj (kvs : List (String × Json))

/-- First binding of key `k` (Python dict keys are unique, so first = only). -/
def lookupKey (kvs : List (String × Json)) (k : String) : Option Json :=
  match kvs with
  | [] => none
  | (k2, v) :: rest => if k2 = k then some v else lookupKey rest k

/-- Python `j.get(k, d)`: only a dict has `.get` (anything else raises
`AttributeError`, modelled as `.error`). -/
def Json.getD (j : Json) (k : String) (d : Json) : Except Unit Json :=
  match j with
  | .obj kvs => .ok ((lookupKey kvs k).getD d)
  | _ => .error ()

/-- Python `for x in j`: lists yield elements, dicts yield their keys,
strings yield their one-character substrings; anything else raises
`TypeError` (modelled as `.error`). -/
def Json.iter : Json → Except Unit (List Json)
  | .arr xs => .ok xs
  | .obj kvs => .ok (kvs.map (fun kv => .str kv.1))
  | .str s => .ok (s.toList.map (fun c => .str (String.mk [c])))
  | _ => .error ()

/-- Python `repr` of a JSON value (string-escaping inside container reprs is
elided; no claim inspects these strings). -/
def pyRepr : Json → String
  | .null => "None"
  | .bool true => "True"
  | .bool false => "False"
  | .num n => toString n
  | .str s => "\x27" ++ s ++ "\x27"
  | .arr xs => "[" ++
      String.intercalate ", " (xs.attach.map (fun x => pyRepr x.1)) ++ "]"
  | .obj kvs => "\x7b" ++
      String.intercalate ", " (kvs.attach.map (fun kv =>
        "\x27" ++ kv.1.1 ++ "\x27: " ++ pyRepr kv.1.2)) ++ "\x7d"
decreasing_by
  · have := List.sizeOf_lt_of_mem x.2
    simp_wf
    omega
  · have h1 := List.sizeOf_lt_of_mem kv.2
    obtain ⟨⟨k, v⟩, hm⟩ := kv
    simp only [Prod.mk.sizeOf_spec] at h1
    simp_wf
    omega

/-- Python `str()` as used by an f-string: strings unchanged, everything else
via its repr-style text. -/
def pyStr : Json → String
  | .str s => s
  | j => pyRepr j

/-- A stored snippet: `{"content": ..., "metadata": {...}}` as built by the
initializer.  The content is whatever JSON value the achievement was. -/
structure RawSnippet where
  content : Json
  metadata : List (String × Json)

/-- One iteration of the experience loop body for one role: fetch company and
title, iterate `role.get('achievements', role.get('responsibilities', []))`,
and build one snippet per achievement.  All `.get` calls succeed or fail
together (they fail exactly when `role` is not a dict, before any snippet of
this role is appended), so the evaluation order inside the role is
immaterial. -/
def roleSnippets (role : Json) : Except Unit (List RawSnippet) := do
  let company ← role.getD "company" (.str "Unknown")
  let title ← role.getD "title" (.str "Position")
  let resp ← role.getD "responsibilities" (.arr [])
  let achsVal ← role.getD "achievements" resp
  let dates ← role.getD "dates" (.str "")
  let achs ← achsVal.iter
  pure (achs.map (fun ach =>
    ⟨ach, [("type", .str "experience"), ("company", company),
           ("title", title), ("dates", dates)]⟩))

/-- The experience loop: appends each role's snippets in order; a raising role
stops the loop, keeping everything appended so far (flag `false`). -/
def expPhase : List Json → List RawSnippet × Bool
  | [] => ([], true)
  | r :: rs =>
    match roleSnippets r with
    | .error _ => ([], false)
    | .ok ss =>
      let p := expPhase rs
      (ss ++ p.1, p.2)

/-- One iteration of the projects loop body:
`content = f"Project {project.get('name')}: {project.get('description')}"`,
raising exactly when `project` is not a dict. -/
def projSnippet (project : Json) : Except Unit RawSnippet := do
  let name ← project.getD "name" .null
  let desc ← project.getD "description" .null
  pure ⟨.str ("Project " ++ pyStr name ++ ": " ++ pyStr desc),
    [("type", .str "project"), ("name", name)]⟩

/-- The projects loop, with the same partial-progress semantics. -/
def projPhase : List Json → List RawSnippet × Bool
  | [] => ([], true)
  | p :: ps =>
    match projSnippet p with
    | .error _ => ([], false)
    | .ok s =>
      let q := projPhase ps
      (s :: q.1, q.2)

/-- `RAGEngine._initialize_snippets`: the whole `try` body.  Returns the final
contents of `self.snippets` and `true` iff no exception was raised (every
exception is caught by the `except Exception` handler and only logged, so
the constructor itself never raises).  `none` models an unreadable file or a
`json.load` failure: the exception fires before anything is appended. -/
def initSnippetsRun : Option Json → List RawSnippet × Bool
  | none => ([], false)
  | some profile =>
    match profile.getD "experience" (.arr []) with
    | .error _ => ([], false)
    | .ok e =>
      match e.iter with
      | .error _ => ([], false)
      | .ok roles =>
        let p := expPhase roles
        if !p.2 then (p.1, false)
        else
          match profile.getD "projects" (.arr []) with
          | .error _ => (p.1, false)
          | .ok pj =>
            match pj.iter with
            | .error _ => (p.1, false)
            | .ok projects =>
              let q := projPhase projects
              (p.1 ++ q.1, q.2)

/-- The snippet store after construction. -/
def initSnippets (j : Option Json) : List RawSnippet := (initSnippetsRun j).1

/-! #### Well-shaped profiles (§6 of the spec) and their JSON encoding -/

structure Role where
  company : String
  title : String
  dates : String
  achievements : List String

structure Project where
  name : String
  description : String

structure Profile where
  experience : List Role
  projects : List Project

def roleToJson (r : Role) : Json :=
  .obj [("company", .str r.company), ("title", .str r.title),
        ("dates", .str r.dates),
        ("achievements", .arr (r.achievements.map Json.str))]

def projectToJson (p : Project) : Json :=
  .obj [("name", .str p.name), ("description", .str p.description)]

def profileToJson (p : Profile) : Json :=
  .obj [("experience", .arr (p.experience.map roleToJson)),
        ("projects", .arr (p.projects.map projectToJson))]

/-- The snippet built for one achievement of a well-shaped role. -/
def mkExpSnippet (company title dates ach : String) : RawSnippet :=
  ⟨.str ach, [("type", .str "experience"), ("company", .str company),
              ("title", .str title), ("dates", .str dates)]⟩

/-- The snippet built for one well-shaped project. -/
def mkProjSnippet (name description : String) : RawSnippet :=
  ⟨.str ("Project " ++ name ++ ": " ++ description),
   [("type", .str "project"), ("name", .str name)]⟩

/-- The snippet's content is a non-empty string. -/
def contentNonempty (s : RawSnippet) : Prop :=
  ∃ t : String, s.content = Json.str t ∧ t ≠ ""

/-! ### Helper lemmas -/

theorem foldl_score_step (content : String) (kws : List String) (acc : ℕ) :
    kws.foldl (fun score kw =>
      if wholeWordMatch (pyLower content) (pyLower kw) then score + 2
      else if substrContains (pyLower content) (pyLower kw) then score + 1
      else score) acc = acc + scoreSpec kws content := by
  induction kws generalizing acc with
  | nil => simp [scoreSpec]
  | cons kw kws ih =>
    rw [List.foldl_cons, ih]
    unfold scoreSpec keywordValue
    rw [List.map_cons, List.sum_cons]
    split_ifs <;> omega

/-- The accumulated snippet score equals the spec's sum of per-keyword
values. -/
theorem snippetScore_eq_scoreSpec (kws : List String) (content : String) :
    snippetScore kws content = scoreSpec kws content := by
  unfold snippetScore
  rw [foldl_score_step]
  exact Nat.zero_add _

theorem scoredSnippets_cons (s : Snippet) (ss : List Snippet)
    (kws : List String) :
    scoredSnippets (s :: ss) kws
      = (if 0 < snippetScore kws s.content
          then [(snippetScore kws s.content, s)] else [])
        ++ scoredSnippets ss kws := by
  unfold scoredSnippets
  rw [List.filterMap_cons]
  by_cases h : 0 < snippetScore kws s.content
  · simp [h]
  · simp [h]

/-- The conditional-append loop builds exactly the score-filtered list of
scored snippets. -/
theorem scoredSnippets_eq (snippets : List Snippet) (kws : List String) :
    scoredSnippets snippets kws
      = (snippets.map (fun s => (scoreSpec kws s.content, s))).filter
          (fun p => p.1 != 0) := by
  induction snippets with
  | nil => rfl
  | cons s ss ih =>
    rw [scoredSnippets_cons, List.map_cons, List.filter_cons]
    rw [snippetScore_eq_scoreSpec]
    by_cases h : scoreSpec kws s.content = 0
    · simp [h, ih]
    · simp [Nat.pos_of_ne_zero h, h, ih]

theorem pySortDesc_sorted {α : Type} (l : List (ℕ × α)) :
    List.Sorted scoreGE (pySortDesc l) :=
  List.sorted_insertionSort scoreGE l

theorem filter_orderedInsert_ne {α : Type} (x : ℕ × α) (l : List (ℕ × α))
    (c : ℕ) (hx : x.1 ≠ c) :
    (l.orderedInsert scoreGE x).filter (fun p => p.1 == c)
      = l.filter (fun p => p.1 == c) := by
  induction l with
  | nil => simp [List.orderedInsert, hx]
  | cons b l ih =>
    rw [List.orderedInsert]
    split_ifs with h
    · simp [List.filter_cons, hx]
    · simp [List.filter_cons, ih]

theorem filter_orderedInsert_eq {α : Type} (x : ℕ × α) (l : List (ℕ × α))
    {c : ℕ} (hx : x.1 = c) :
    (l.orderedInsert scoreGE x).filter (fun p => p.1 == c)
      = x :: l.filter (fun p => p.1 == c) := by
  induction l with
  | nil => simp [List.orderedInsert, hx]
  | cons b l ih =>
    rw [List.orderedInsert]
    split_ifs with h
    · simp [List.filter_cons, hx]
    · have hb : ¬ b.1 = c := by
        unfold scoreGE at h
        omega
      simp [List.filter_cons, hb, hx, ih]

/-- Stability of the descending sort: the elements of any one score class
appear in the sorted output in exactly their original order. -/
theorem filter_pySortDesc {α : Type} (l : List (ℕ × α)) (c : ℕ) :
    (pySortDesc l).filter (fun p => p.1 == c)
      = l.filter (fun p => p.1 == c) := by
  induction l with
  | nil => rfl
  | cons x xs ih =>
    unfold pySortDesc List.insertionSort
    by_cases hx : x.1 = c
    · rw [filter_orderedInsert_eq x _ hx, List.filter_cons]
      simp only [hx, beq_self_eq_true, if_pos]
      rw [← ih]
      rfl
    · rw [filter_orderedInsert_ne x _ c hx, List.filter_cons]
      simp only [beq_iff_eq, hx, if_neg, ite_false]
      rw [← ih]
      rfl

theorem pySlice_map {α β : Type} (f : α → β) (l : List α) (k : ℤ) :
    (pySlice l k).map f = pySlice (l.map f) k := by
  unfold pySlice
  split_ifs with h
  · rw [List.map_take]
  · rw [List.map_take, List.length_map]

/-- The ranked (sorted, score-filtered) snippet list, before the `top_k`
slice. -/
def rankedMatches (snippets : List Snippet) (kws : List String) :
    List Snippet :=
  (pySortDesc (scoredSnippets snippets kws)).map (fun s => s.2)

/-! ### Claim theorems -/

/-- C2: `retrieve` assigns each snippet the score
`sum over keywords of (2 on a whole-word case-insensitive match, else 1 on a
case-insensitive substring, else 0)`, excludes exactly the snippets with
score 0, sorts the remainder by score descending with ties in original
order (the sort is stable), and returns the first `top_k` of that order. -/
theorem retrieve_is_filtered_stable_ranking (snippets : List Snippet)
    (kws : List String) (k : ℤ) :
    retrieve_relevant_experience snippets kws k
      = pySlice ((pySortDesc ((snippets.map
            (fun s => (scoreSpec kws s.content, s))).filter
              (fun p => p.1 != 0))).map (fun s => s.2)) k
    ∧ List.Sorted scoreGE (pySortDesc (scoredSnippets snippets kws))
    ∧ ∀ c : ℕ, (pySortDesc (scoredSnippets snippets kws)).filter
          (fun p => p.1 == c)
        = (scoredSnippets snippets kws).filter (fun p => p.1 == c) := by
  refine ⟨?_, pySortDesc_sorted _, fun c => filter_pySortDesc _ c⟩
  rw [retrieve_relevant_experience, scoredSnippets_eq, pySlice_map]

/-- C8: for `top_k = k ≥ 0` the result has at most `k` elements, and
`top_k = 0` yields the empty list. -/
theorem retrieve_topk_bound (snippets : List Snippet) (kws : List String)
    (k : ℤ) (h : 0 ≤ k) :
    (retrieve_relevant_experience snippets kws k).length ≤ k.toNat
    ∧ retrieve_relevant_experience snippets kws 0 = [] := by
  constructor
  · rw [retrieve_relevant_experience, List.length_map]
    unfold pySlice
    rw [if_pos h, List.length_take]
    exact min_le_left _ _
  · rw [retrieve_relevant_experience]
    unfold pySlice
    simp

theorem retrieve_topk_bound_witness :
    (0 : ℤ) ≤ 2
    ∧ ((retrieve_relevant_experience
          [⟨"python code", []⟩, ⟨"python api", []⟩, ⟨"java", []⟩]
          ["python"] 2).length ≤ (2 : ℤ).toNat
        ∧ retrieve_relevant_experience
            [⟨"python code", []⟩, ⟨"python api", []⟩, ⟨"java", []⟩]
            ["python"] 0 = []) :=
  ⟨by norm_num,
   retrieve_topk_bound [⟨"python code", []⟩, ⟨"python api", []⟩,
     ⟨"java", []⟩] ["python"] 2 (by norm_num)⟩

/-- C9: appending a keyword that whole-word-matches a snippet's content never
lowers that snippet's score (it raises it by exactly 2, but the claim only
asserts it cannot drop). -/
theorem snippet_score_monotone (content : String) (kws : List String)
    (kw : String) (h : wholeWordMatch (pyLower content) (pyLower kw) = true) :
    snippetScore kws content ≤ snippetScore (kws ++ [kw]) content := by
  rw [snippetScore_eq_scoreSpec, snippetScore_eq_scoreSpec]
  unfold scoreSpec
  rw [List.map_append, List.sum_append]
  exact Nat.le_add_right _ _

theorem snippet_score_monotone_witness :
    wholeWordMatch (pyLower "Led migration to Python microservices")
        (pyLower "Python") = true
    ∧ snippetScore ["java"] "Led migration to Python microservices"
        ≤ snippetScore (["java"] ++ ["Python"])
            "Led migration to Python microservices" :=
  ⟨by decide,
   snippet_score_monotone "Led migration to Python microservices" ["java"]
     "Python" (by decide)⟩

/-- C10: a negative `top_k = -(n+1)` returns the ranked matching snippets
with the last `min(n+1, match count)` entries removed (Python suffix
slicing) instead of erroring or returning `[]`; in particular a negative
`top_k` can return a non-empty list, so the top-K length bound fails
there. -/
theorem retrieve_negative_topk (snippets : List Snippet) (kws : List String)
    (n : ℕ) :
    retrieve_relevant_experience snippets kws (-(n + 1 : ℤ))
      = (rankedMatches snippets kws).take
          ((rankedMatches snippets kws).length - (n + 1))
    ∧ retrieve_relevant_experience
        [⟨"python code", []⟩, ⟨"python api", []⟩] ["python"] (-1)
        = [⟨"python code", []⟩] := by
  constructor
  · rw [retrieve_relevant_experience, rankedMatches]
    unfold pySlice
    rw [if_neg (by omega), List.map_take, List.length_map]
    norm_num
  · rfl

theorem foldl_match_step (candidate required : List String) (acc : ℕ) :
    required.foldl (fun m req_item =>
      if candidate.contains req_item then m + 1
      else if candidate.any (fun cand_item => sharesWord req_item cand_item)
        then m + 1
      else m) acc
    = acc + required.countP (fun req =>
        candidate.contains req || candidate.any (fun c => sharesWord req c)) := by
  have hstep : ∀ (m : ℕ) (r : String),
      (if candidate.contains r then m + 1
       else if candidate.any (fun cand_item => sharesWord r cand_item)
         then m + 1 else m)
      = m + (if (candidate.contains r ||
          candidate.any fun c => sharesWord r c) then 1 else 0) := by
    intro m r
    by_cases hc : candidate.contains r = true
    · have hm : r ∈ candidate := List.elem_iff.mp hc
      simp [hc, hm]
    · simp only [Bool.not_eq_true] at hc
      simp only [hc, Bool.false_eq_true, if_false, Bool.false_or]
      by_cases hs : (candidate.any fun c => sharesWord r c) = true
      · simp [hs]
      · simp only [Bool.not_eq_true] at hs
        simp [hs]
  induction required generalizing acc with
  | nil => simp
  | cons r rs ih =>
    rw [List.foldl_cons, ih, List.countP_cons, hstep]
    split_ifs <;> omega

/-- The match count is the number of required items that are exact members of
the candidate set or share a word with some candidate item. -/
theorem count_matches_eq_countP (required candidate : List String) :
    count_matches required candidate
      = required.countP (fun req =>
          candidate.contains req ||
            candidate.any (fun c => sharesWord req c)) := by
  unfold count_matches
  rw [foldl_match_step]
  exact Nat.zero_add _

theorem count_matches_le_length (required candidate : List String) :
    count_matches required candidate ≤ required.length := by
  rw [count_matches_eq_countP]
  exact List.countP_le_length _

theorem le_roundHalfEven {q : ℚ} {A : ℤ} (h : (A : ℚ) ≤ q) :
    A ≤ roundHalfEven q := by
  have h1 : A ≤ ⌊q⌋ := Int.le_floor.mpr h
  unfold roundHalfEven
  split_ifs <;> omega

theorem roundHalfEven_le {q : ℚ} {B : ℤ} (h : q ≤ (B : ℚ)) :
    roundHalfEven q ≤ B := by
  have hfl : (⌊q⌋ : ℚ) ≤ q := Int.floor_le q
  have h1 : ⌊q⌋ ≤ B := by exact_mod_cast hfl.trans h
  unfold roundHalfEven
  split_ifs with h2 h3 h4
  · exact h1
  · by_contra hc
    push_neg at hc
    have h5 : B ≤ ⌊q⌋ := by omega
    have h6 : (B : ℚ) ≤ (⌊q⌋ : ℚ) := by exact_mod_cast h5
    linarith
  · exact h1
  · by_contra hc
    push_neg at hc
    have h5 : B ≤ ⌊q⌋ := by omega
    have h6 : (B : ℚ) ≤ (⌊q⌋ : ℚ) := by exact_mod_cast h5
    linarith

/-- Rounding to one decimal keeps a value inside `[0, 100]`. -/
theorem pyRound1_bounds {q : ℚ} (h0 : 0 ≤ q) (h1 : q ≤ 100) :
    0 ≤ pyRound1 q ∧ pyRound1 q ≤ 100 := by
  have hA : ((0 : ℤ) : ℚ) ≤ q * 10 := by push_cast; linarith
  have hB : q * 10 ≤ ((1000 : ℤ) : ℚ) := by push_cast; linarith
  have h2 := le_roundHalfEven hA
  have h3 := roundHalfEven_le hB
  have h4 : (0 : ℚ) ≤ (roundHalfEven (q * 10) : ℚ) := by exact_mod_cast h2
  have h5 : (roundHalfEven (q * 10) : ℚ) ≤ 1000 := by exact_mod_cast h3
  unfold pyRound1
  constructor
  · positivity
  · rw [div_le_iff₀ (by norm_num : (0:ℚ) < 10)]
    linarith

theorem requiredScoreQ_nonneg (cs : List String) (job : JobAnalysis) :
    0 ≤ requiredScoreQ cs job := by
  unfold requiredScoreQ
  split_ifs
  · norm_num
  · positivity

theorem niceScoreQ_nonneg (cs : List String) (job : JobAnalysis) :
    0 ≤ niceScoreQ cs job := by
  unfold niceScoreQ
  split_ifs
  · norm_num
  · positivity

theorem keywordScoreQ_nonneg (ck : List String) (job : JobAnalysis) :
    0 ≤ keywordScoreQ ck job := by
  unfold keywordScoreQ
  split_ifs
  · norm_num
  · positivity

theorem requiredScoreQ_le (cs : List String) (job : JobAnalysis) :
    requiredScoreQ cs job ≤ 100 := by
  unfold requiredScoreQ
  split_ifs with h
  · norm_num
  · have hL : 0 < (jobRequired job).length := List.length_pos.mpr h
    have hm : count_matches (jobRequired job) cs ≤ (jobRequired job).length :=
      count_matches_le_length _ _
    have hL' : (0 : ℚ) < ((jobRequired job).length : ℚ) := by
      exact_mod_cast hL
    have hdiv : (count_matches (jobRequired job) cs : ℚ) /
        ((jobRequired job).length : ℚ) ≤ 1 := by
      rw [div_le_one hL']
      exact_mod_cast hm
    nlinarith

/-- C3: `_count_matches` counts a requirement as matched iff it is an exact
member of the candidate set or some candidate item shares a whitespace word
with it, and each requirement contributes at most 1 however many candidate
items overlap it (the count never exceeds the number of requirements). -/
theorem count_matches_matched_iff (required candidate : List String) :
    count_matches required candidate
      = required.countP (fun req => decide (req ∈ candidate
          ∨ ∃ c ∈ candidate, sharesWord req c = true))
    ∧ count_matches required candidate ≤ required.length := by
  refine ⟨?_, count_matches_le_length _ _⟩
  rw [count_matches_eq_countP]
  congr 1
  funext req
  by_cases h1 : req ∈ candidate
  · simp [h1, List.elem_iff.mpr h1]
  · by_cases h2 : ∃ c ∈ candidate, sharesWord req c = true
    · simp [h1, h2, List.any_eq_true.mpr h2]
    · simp only [List.any_eq_true] at h2 ⊢
      simp [h1, h2]
      intro x hx
      by_contra hb
      exact h2 ⟨x, hx, by simpa using hb⟩

/-- C6: an empty `must_have_skills` list yields `required_score = 100`, an
empty `nice_to_have_skills` list yields `nice_to_have_score = 0`, an empty
`ats_keywords` list yields `keyword_score = 0`; the guards replace the empty
denominators by these defaults, so no division by zero is performed. -/
theorem empty_requirement_defaults (cs ck : List String) (job : JobAnalysis) :
    (job.must_have_skills = [] →
      (calculate_match_score cs ck job).required_skills_score = 100)
    ∧ (job.nice_to_have_skills = [] →
      (calculate_match_score cs ck job).nice_to_have_score = 0)
    ∧ (job.ats_keywords = [] →
      (calculate_match_score cs ck job).keyword_score = 0) := by
  refine ⟨fun h1 => ?_, fun h2 => ?_, fun h3 => ?_⟩
  · show pyRound1 (requiredScoreQ cs job) = 100
    rw [show requiredScoreQ cs job = 100 from by
      simp [requiredScoreQ, jobRequired, lowerSet, h1]]
    norm_num [pyRound1, roundHalfEven]
  · show pyRound1 (niceScoreQ cs job) = 0
    rw [show niceScoreQ cs job = 0 from by
      simp [niceScoreQ, jobNice, lowerSet, h2]]
    norm_num [pyRound1, roundHalfEven]
  · show pyRound1 (keywordScoreQ ck job) = 0
    rw [show keywordScoreQ ck job = 0 from by
      simp [keywordScoreQ, jobAts, lowerSet, h3]]
    norm_num [pyRound1, roundHalfEven]

theorem empty_requirement_defaults_witness :
    (calculate_match_score [] [] ⟨[], [], []⟩).required_skills_score = 100
    ∧ (calculate_match_score [] [] ⟨[], [], []⟩).nice_to_have_score = 0
    ∧ (calculate_match_score [] [] ⟨[], [], []⟩).keyword_score = 0 :=
  ⟨(empty_requirement_defaults [] [] ⟨[], [], []⟩).1 rfl,
   (empty_requirement_defaults [] [] ⟨[], [], []⟩).2.1 rfl,
   (empty_requirement_defaults [] [] ⟨[], [], []⟩).2.2 rfl⟩

/-- C7: the overall score is `min(100, required + nice + keyword)` rounded to
one decimal, and it always lies between 0 and 100. -/
theorem overall_score_formula_and_bounds (cs ck : List String)
    (job : JobAnalysis) :
    (calculate_match_score cs ck job).overall_score
      = pyRound1 (min 100 (requiredScoreQ cs job + niceScoreQ cs job
          + keywordScoreQ ck job))
    ∧ 0 ≤ (calculate_match_score cs ck job).overall_score
    ∧ (calculate_match_score cs ck job).overall_score ≤ 100 := by
  have hsum : 0 ≤ requiredScoreQ cs job + niceScoreQ cs job
      + keywordScoreQ ck job :=
    add_nonneg (add_nonneg (requiredScoreQ_nonneg cs job)
      (niceScoreQ_nonneg cs job)) (keywordScoreQ_nonneg ck job)
  have h0 : 0 ≤ overallQ cs ck job := le_min (by norm_num) hsum
  have h1 : overallQ cs ck job ≤ 100 := min_le_left _ _
  have hb := pyRound1_bounds h0 h1
  exact ⟨rfl, hb.1, hb.2⟩

/-- With all three requirement lists empty all components hit their defaults
and the recommendation composer emits exactly the strong-match message. -/
theorem calc_all_empty (cs ck : List String) (job : JobAnalysis)
    (h1 : job.must_have_skills = []) (h2 : job.nice_to_have_skills = [])
    (h3 : job.ats_keywords = []) :
    (calculate_match_score cs ck job).overall_score = 100
    ∧ (calculate_match_score cs ck job).recommendations = [strongMatchMsg] := by
  have hr : jobRequired job = [] := by simp [jobRequired, lowerSet, h1]
  have hn : jobNice job = [] := by simp [jobNice, lowerSet, h2]
  have ha : jobAts job = [] := by simp [jobAts, lowerSet, h3]
  have hO : overallQ cs ck job = 100 := by
    unfold overallQ requiredScoreQ niceScoreQ keywordScoreQ
    rw [hr, hn, ha]
    norm_num
  constructor
  · show pyRound1 (overallQ cs ck job) = 100
    rw [hO]
    norm_num [pyRound1, roundHalfEven]
  · show generate_recommendations (overallQ cs ck job)
        (setDiff (jobRequired job) cs) (setDiff (jobNice job) cs)
      = [strongMatchMsg]
    rw [hO, hr, hn]
    simp [generate_recommendations, setDiff]
    norm_num

/-- C1 (amended): with all three requirement lists empty, the overall score is
100.0 and the recommendations list contains the "strong match" affirmation
and nothing else (the `overall_score >= 70` rule fires, so the generic
"excellent match" fallback — reserved for when no rule fired — does not). -/
theorem empty_requirements_strong_match (cs ck : List String)
    (job : JobAnalysis) (h1 : job.must_have_skills = [])
    (h2 : job.nice_to_have_skills = []) (h3 : job.ats_keywords = []) :
    (calculate_match_score cs ck job).overall_score = 100
    ∧ (calculate_match_score cs ck job).recommendations = [strongMatchMsg] :=
  calc_all_empty cs ck job h1 h2 h3

theorem empty_requirements_strong_match_witness :
    (calculate_match_score [] [] ⟨[], [], []⟩).overall_score = 100
    ∧ (calculate_match_score [] [] ⟨[], [], []⟩).recommendations
        = [strongMatchMsg] :=
  empty_requirements_strong_match [] [] ⟨[], [], []⟩ rfl rfl rfl

/-- C1 counterexample: with all three requirement lists empty (Scenario D)
the recommendations list is not `[excellent-match message]` — the strong-match
rule fires first, so the fallback never runs. -/
theorem scenario_d_counterexample :
    (calculate_match_score [] [] ⟨[], [], []⟩).recommendations
      ≠ [excellentMatchMsg] := by
  rw [(calc_all_empty [] [] ⟨[], [], []⟩ rfl rfl rfl).2]
  intro hc
  have h1 : strongMatchMsg = excellentMatchMsg := by injection hc
  exact absurd h1 (by decide)

/-- A structurally malformed but JSON-parseable profile: `projects` is the
number 5, so iterating it raises `TypeError` — but only after the experience
loop already appended one snippet. -/
def malformedProfile : Json :=
  .obj [("experience", .arr [.obj
    [("company", .str "Acme"), ("title", .str "Dev"),
     ("dates", .str "2021"),
     ("achievements", .arr [.str "Shipped the product"])]]),
   ("projects", .num 5)]

/-- C4 counterexample: on `malformedProfile` an exception is raised inside the
`try` block (flag `false`), yet the store ends up with 1 snippet, not 0 —
the snippets appended before the failure survive in `self.snippets`. -/
theorem malformed_profile_partial_store :
    (initSnippetsRun (some malformedProfile)).2 = false
    ∧ (initSnippetsRun (some malformedProfile)).1.length = 1 :=
  ⟨rfl, rfl⟩

/-- C4 (amended): construction never raises (`initSnippetsRun` is total and
the `except` swallows every exception, only logging it); an unreadable or
unparseable profile leaves the store with zero snippets (a structural
failure part-way keeps the snippets built before it); and retrieval on an
empty store returns the empty list, not an error. -/
theorem init_failure_semantics :
    initSnippets none = []
    ∧ ∀ (kws : List String) (k : ℤ),
        retrieve_relevant_experience [] kws k = [] := by
  refine ⟨rfl, fun kws k => ?_⟩
  rw [retrieve_relevant_experience]
  simp [pySlice, scoredSnippets, pySortDesc, List.insertionSort]

theorem roleSnippets_toJson (r : Role) :
    roleSnippets (roleToJson r)
      = .ok (r.achievements.map (mkExpSnippet r.company r.title r.dates)) := by
  have h : roleSnippets (roleToJson r)
      = .ok ((r.achievements.map Json.str).map (fun ach =>
          ⟨ach, [("type", .str "experience"), ("company", .str r.company),
                 ("title", .str r.title), ("dates", .str r.dates)]⟩)) := rfl
  rw [h, List.map_map]
  rfl

theorem expPhase_map (rs : List Role) :
    expPhase (rs.map roleToJson)
      = (rs.flatMap (fun r =>
          r.achievements.map (mkExpSnippet r.company r.title r.dates)),
         true) := by
  induction rs with
  | nil => rfl
  | cons r rs ih =>
    rw [List.map_cons]
    simp [expPhase, roleSnippets_toJson, ih]

theorem projSnippet_toJson (pr : Project) :
    projSnippet (projectToJson pr)
      = .ok (mkProjSnippet pr.name pr.description) := rfl

theorem projPhase_map (ps : List Project) :
    projPhase (ps.map projectToJson)
      = (ps.map (fun pr => mkProjSnippet pr.name pr.description), true) := by
  induction ps with
  | nil => rfl
  | cons pr ps ih =>
    rw [List.map_cons]
    simp [projPhase, projSnippet_toJson, ih]

/-- C5 (amended): on any well-shaped profile, construction completes without
raising and builds exactly one snippet per achievement, in document order
within each role, with content equal to that achievement verbatim (so the
content is empty exactly when the achievement string is), followed by one
`"Project {name}: {description}"` snippet per project. -/
theorem init_wellformed_one_snippet_per_achievement (p : Profile) :
    initSnippetsRun (some (profileToJson p))
      = (p.experience.flatMap (fun r =>
          r.achievements.map (mkExpSnippet r.company r.title r.dates))
         ++ p.projects.map (fun pr => mkProjSnippet pr.name pr.description),
         true) := by
  simp only [initSnippetsRun, profileToJson, Json.getD, lookupKey, Json.iter]
  norm_num
  rw [expPhase_map]
  simp [projPhase_map]

/-- The profile whose single role has the single achievement `""`. -/
def emptyAchievementProfile : Profile :=
  ⟨[⟨"Acme", "Engineer", "2020", [""]⟩], []⟩

/-- C5 counterexample: the well-shaped profile with one empty-string
achievement is accepted, and its single snippet's content is the empty
string — the non-emptiness invariant fails. -/
theorem empty_achievement_empty_content :
    ¬ ∀ s ∈ initSnippets (some (profileToJson emptyAchievementProfile)),
        contentNonempty s := by
  intro h
  have hm : mkExpSnippet "Acme" "Engineer" "2020" ""
      ∈ initSnippets (some (profileToJson emptyAchievementProfile)) := by
    rw [show initSnippets (some (profileToJson emptyAchievementProfile))
        = [mkExpSnippet "Acme" "Engineer" "2020" ""] from rfl]
    exact List.mem_singleton.mpr rfl
  obtain ⟨t, ht, hne⟩ := h _ hm
  have h2 : Json.str "" = Json.str t := ht
  injection h2 with h3
  exact hne h3.symm

end JobAgent
